import Mathlib

/-!
Verification development for the DirectFB video sink
(`ext/dfb/dfbvideosink.c`): a shallow embedding of its pixel-format
translation tables, buffer pool, geometry fitter and reverse-negotiation
arithmetic, together with theorems about the properties stated in the
design document.
-/

set_option maxRecDepth 4000

namespace DfbVideoSink

/-! ## Pixel formats (`DFBSurfacePixelFormat`, restricted to the values
the sink's translation tables mention) -/

inductive DFBSurfacePixelFormat where
  | DSPF_UNKNOWN
  | DSPF_RGB16
  | DSPF_RGB24
  | DSPF_RGB32
  | DSPF_ARGB
  | DSPF_I420
  | DSPF_YV12
  | DSPF_YUY2
  | DSPF_UYVY
  | DSPF_NV12
  deriving DecidableEq, Repr

open DFBSurfacePixelFormat

/-! ## Caps descriptors

`GstCaps` as the two translation functions read them: the first structure
is either a `video/x-raw-rgb` structure (integer fields `bpp`, `depth`,
`endianness`, `red_mask`, `green_mask`, `blue_mask` and an optional
`alpha_mask`; `gst_structure_get_int` may fail for any of them, hence
`Option`), a `video/x-raw-yuv` structure (an optional fourcc field
`format`), or a structure with some other name. -/

structure GstRgbStructure where
  bpp : Option Int
  depth : Option Int
  endianness : Option Int
  red_mask : Option Int
  green_mask : Option Int
  blue_mask : Option Int
  alpha_mask : Option Int
  deriving DecidableEq, Repr

inductive GstVideoCapsStructure where
  | rgb (s : GstRgbStructure)
  | yuv (format : Option Nat)
  | otherName
  deriving DecidableEq, Repr

/-- `G_BIG_ENDIAN` in glib. -/
def G_BIG_ENDIAN : Int := 4321

/-- `GST_MAKE_FOURCC(a,b,c,d) = a | (b << 8) | (c << 16) | (d << 24)`. -/
def GST_MAKE_FOURCC (a b c d : Char) : Nat :=
  a.toNat + b.toNat * 256 + c.toNat * 65536 + d.toNat * 16777216

def FOURCC_I420 : Nat := GST_MAKE_FOURCC 'I' '4' '2' '0'
def FOURCC_YV12 : Nat := GST_MAKE_FOURCC 'Y' 'V' '1' '2'
def FOURCC_YUY2 : Nat := GST_MAKE_FOURCC 'Y' 'U' 'Y' '2'
def FOURCC_UYVY : Nat := GST_MAKE_FOURCC 'U' 'Y' 'V' 'Y'
def FOURCC_NV12 : Nat := GST_MAKE_FOURCC 'N' 'V' '1' '2'

/-- `gst_dfbvideosink_get_format_from_caps`: inspect the first caps
structure and return the matching pixel format, `DSPF_UNKNOWN` when no
table entry matches.  RGB caps need all six of bpp/depth/endianness and
the three colour masks (`ret` accumulates the six `gst_structure_get_int`
results); `have_alpha` is whether an `alpha_mask` field was read. -/
def gst_dfbvideosink_get_format_from_caps : GstVideoCapsStructure → DFBSurfacePixelFormat
  | .rgb s =>
    match s.bpp, s.depth, s.endianness, s.red_mask, s.green_mask, s.blue_mask,
        s.alpha_mask with
    | some bpp, some depth, some e, some r, some g, some b, none =>
      if bpp = 16 ∧ depth = 16 ∧ e = G_BIG_ENDIAN ∧
          r = 0xf800 ∧ g = 0x07e0 ∧ b = 0x001f then DSPF_RGB16
      else if bpp = 24 ∧ depth = 24 ∧ e = G_BIG_ENDIAN ∧
          r = 0xff0000 ∧ g = 0x00ff00 ∧ b = 0x0000ff then DSPF_RGB24
      else if bpp = 32 ∧ depth = 24 ∧ e = G_BIG_ENDIAN ∧
          r = 0x00ff0000 ∧ g = 0x0000ff00 ∧ b = 0x000000ff then DSPF_RGB32
      else DSPF_UNKNOWN
    | some bpp, some depth, some e, some r, some g, some b, some a =>
      if bpp = 32 ∧ depth = 32 ∧ e = G_BIG_ENDIAN ∧ a = 0xff000000 ∧
          r = 0x00ff0000 ∧ g = 0x0000ff00 ∧ b = 0x000000ff then DSPF_ARGB
      else DSPF_UNKNOWN
    | _, _, _, _, _, _, _ => DSPF_UNKNOWN
  | .yuv (some fourcc) =>
    if fourcc = FOURCC_I420 then DSPF_I420
    else if fourcc = FOURCC_YV12 then DSPF_YV12
    else if fourcc = FOURCC_YUY2 then DSPF_YUY2
    else if fourcc = FOURCC_UYVY then DSPF_UYVY
    else if fourcc = FOURCC_NV12 then DSPF_NV12
    else DSPF_UNKNOWN
  | .yuv none => DSPF_UNKNOWN
  | .otherName => DSPF_UNKNOWN

/-- `gst_dfbvideosink_get_caps_from_format`: the canonical caps structure
for a supported pixel format; `NULL` (here `none`) for `DSPF_UNKNOWN`. -/
def gst_dfbvideosink_get_caps_from_format :
    DFBSurfacePixelFormat → Option GstVideoCapsStructure
  | DSPF_UNKNOWN => none
  | DSPF_RGB16 => some (.rgb ⟨some 16, some 16, some G_BIG_ENDIAN,
      some 0xf800, some 0x07e0, some 0x001f, none⟩)
  | DSPF_RGB24 => some (.rgb ⟨some 24, some 24, some G_BIG_ENDIAN,
      some 0xff0000, some 0x00ff00, some 0x0000ff, none⟩)
  | DSPF_RGB32 => some (.rgb ⟨some 32, some 24, some G_BIG_ENDIAN,
      some 0x00ff0000, some 0x0000ff00, some 0x000000ff, none⟩)
  | DSPF_ARGB => some (.rgb ⟨some 32, some 32, some G_BIG_ENDIAN,
      some 0x00ff0000, some 0x0000ff00, some 0x000000ff, some 0xff000000⟩)
  | DSPF_YUY2 => some (.yuv (some FOURCC_YUY2))
  | DSPF_UYVY => some (.yuv (some FOURCC_UYVY))
  | DSPF_I420 => some (.yuv (some FOURCC_I420))
  | DSPF_YV12 => some (.yuv (some FOURCC_YV12))
  | DSPF_NV12 => some (.yuv (some FOURCC_NV12))

/-- C1: for every caps descriptor `D` mapping to a supported (non-`UNKNOWN`)
pixel format, the translation round-trip is stable:
`format_from_caps (caps_from_format (format_from_caps D)) = format_from_caps D`,
i.e. the canonical descriptor of each supported format maps back to that
format. -/
theorem caps_of_format_of (D : GstVideoCapsStructure)
    (h : gst_dfbvideosink_get_format_from_caps D ≠ DSPF_UNKNOWN) :
    (gst_dfbvideosink_get_caps_from_format
        (gst_dfbvideosink_get_format_from_caps D)).map
      gst_dfbvideosink_get_format_from_caps =
      some (gst_dfbvideosink_get_format_from_caps D) := by
  cases hf : gst_dfbvideosink_get_format_from_caps D <;>
    first
      | exact absurd hf h
      | decide

/-- Witness for C1 at the concrete I420 caps descriptor. -/
theorem caps_of_format_of_witness :
    (gst_dfbvideosink_get_caps_from_format
        (gst_dfbvideosink_get_format_from_caps (.yuv (some FOURCC_I420)))).map
      gst_dfbvideosink_get_format_from_caps =
      some (gst_dfbvideosink_get_format_from_caps (.yuv (some FOURCC_I420))) :=
  caps_of_format_of (.yuv (some FOURCC_I420)) (by decide)

/-- C6: the translator returns a supported (non-`UNKNOWN`) format exactly
when the descriptor's declared fields (bpp, depth, endianness and channel
masks for RGB; fourcc for YUV) equal, field for field, one of the fixed
canonical table entries — i.e. exactly when the descriptor is the canonical
descriptor of the format returned for it; every other descriptor yields the
`DSPF_UNKNOWN` sentinel. -/
theorem format_from_caps_exact_match (D : GstVideoCapsStructure) :
    gst_dfbvideosink_get_format_from_caps D ≠ DSPF_UNKNOWN ↔
      gst_dfbvideosink_get_caps_from_format
        (gst_dfbvideosink_get_format_from_caps D) = some D := by
  constructor
  · intro h
    rcases D with ⟨bpp, depth, e, r, g, b, a⟩ | fc | _
    · rcases bpp with _ | bpp <;> rcases depth with _ | depth <;>
        rcases e with _ | e <;> rcases r with _ | r <;>
        rcases g with _ | g <;> rcases b with _ | b <;>
        rcases a with _ | a <;>
        simp only [gst_dfbvideosink_get_format_from_caps] at h ⊢ <;>
        try exact absurd rfl h
      · split_ifs at h ⊢ with h1 h2 h3
        · obtain ⟨rfl, rfl, rfl, rfl, rfl, rfl⟩ := h1
          rfl
        · obtain ⟨rfl, rfl, rfl, rfl, rfl, rfl⟩ := h2
          rfl
        · obtain ⟨rfl, rfl, rfl, rfl, rfl, rfl⟩ := h3
          rfl
        · exact absurd rfl h
      · split_ifs at h ⊢ with h1
        · obtain ⟨rfl, rfl, rfl, rfl, rfl, rfl, rfl⟩ := h1
          rfl
        · exact absurd rfl h
    · rcases fc with _ | fc
      · exact absurd rfl h
      · simp only [gst_dfbvideosink_get_format_from_caps] at h ⊢
        split_ifs at h ⊢ with h1 h2 h3 h4 h5
        · subst h1; rfl
        · subst h2; rfl
        · subst h3; rfl
        · subst h4; rfl
        · subst h5; rfl
        · exact absurd rfl h
    · exact absurd rfl h
  · intro h hU
    rw [hU] at h
    exact Option.noConfusion h

/-! ## Video modes and `gst_dfbvideosink_get_best_vmode` -/

structure GstDfbVMode where
  width : Int
  height : Int
  bpp : Int
  deriving DecidableEq, Repr

/-- The gap of a mode against the requested geometry:
`abs (mode.width - v_width) + abs (mode.height - v_height)`. -/
def vmodeGap (v_width v_height : Int) (m : GstDfbVMode) : Nat :=
  (m.width - v_width).natAbs + (m.height - v_height).natAbs

/-- The `while (walk)` loop of `gst_dfbvideosink_get_best_vmode`: walk the
mode list keeping the running best; a mode replaces the running best only
when its gap is strictly smaller (`wgap + hgap < best_wgap + best_hgap`). -/
def bestVModeAux (v_width v_height : Int) :
    List GstDfbVMode → GstDfbVMode → GstDfbVMode
  | [], best => best
  | m :: rest, best =>
    if vmodeGap v_width v_height m < vmodeGap v_width v_height best then
      bestVModeAux v_width v_height rest m
    else
      bestVModeAux v_width v_height rest best

/-- `gst_dfbvideosink_get_best_vmode`: `FALSE` (`none`) when no modes are
known; otherwise the running best is initialised to the first mode and the
loop walks the whole list (its first step compares the first mode with
itself). -/
def gst_dfbvideosink_get_best_vmode (vmodes : List GstDfbVMode)
    (v_width v_height : Int) : Option GstDfbVMode :=
  match vmodes with
  | [] => none
  | first :: _ => some (bestVModeAux v_width v_height vmodes first)

/-- Loop invariant of the best-vmode walk: either the running best is kept
and is no worse than every walked mode, or the result sits in the walked
list, strictly beats the running best and every mode before it, and is no
worse than every mode after it. -/
theorem bestVModeAux_spec (v_width v_height : Int) (l : List GstDfbVMode)
    (best : GstDfbVMode) :
    (bestVModeAux v_width v_height l best = best ∧
      ∀ m ∈ l, vmodeGap v_width v_height best ≤ vmodeGap v_width v_height m) ∨
    (∃ pre post, l = pre ++ bestVModeAux v_width v_height l best :: post ∧
      vmodeGap v_width v_height (bestVModeAux v_width v_height l best) <
        vmodeGap v_width v_height best ∧
      (∀ m ∈ pre, vmodeGap v_width v_height (bestVModeAux v_width v_height l best) <
        vmodeGap v_width v_height m) ∧
      (∀ m ∈ post, vmodeGap v_width v_height (bestVModeAux v_width v_height l best) ≤
        vmodeGap v_width v_height m)) := by
  induction l generalizing best with
  | nil => exact Or.inl ⟨rfl, by simp⟩
  | cons m rest ih =>
    by_cases hlt : vmodeGap v_width v_height m < vmodeGap v_width v_height best
    · rw [bestVModeAux, if_pos hlt]
      rcases ih m with ⟨heq, hall⟩ | ⟨pre, post, hsplit, hbeat, hpre, hpost⟩
      · refine Or.inr ⟨[], rest, ?_, ?_, ?_, ?_⟩
        · simp [heq]
        · rw [heq]; exact hlt
        · simp
        · rw [heq]; exact hall
      · refine Or.inr ⟨m :: pre, post, ?_, ?_, ?_, hpost⟩
        · rw [List.cons_append]
          exact congrArg _ hsplit
        · exact lt_trans hbeat hlt
        · intro x hx
          rcases List.mem_cons.mp hx with rfl | hx
          · exact hbeat
          · exact hpre x hx
    · rw [bestVModeAux, if_neg hlt]
      push_neg at hlt
      rcases ih best with ⟨heq, hall⟩ | ⟨pre, post, hsplit, hbeat, hpre, hpost⟩
      · refine Or.inl ⟨heq, ?_⟩
        intro x hx
        rcases List.mem_cons.mp hx with rfl | hx
        · exact hlt
        · exact hall x hx
      · refine Or.inr ⟨m :: pre, post, ?_, hbeat, ?_, hpost⟩
        · rw [List.cons_append]
          exact congrArg _ hsplit
        · intro x hx
          rcases List.mem_cons.mp hx with rfl | hx
          · exact lt_of_lt_of_le hbeat hlt
          · exact hpre x hx

/-- C3 (amended): for every non-empty mode list the selection returns a
mode of the list minimising `|mode.width - v_width| + |mode.height -
v_height|`, and on an exact tie the first-seen mode in list order is kept
(everything strictly before the returned mode has a strictly larger gap);
in particular, for modes `[{720,480,24},{1280,720,24}]` and requested
`(1000,600)` both gaps are `280+120 = 400` and the tie keeps the
first-seen `{720,480,24}`. -/
theorem get_best_vmode_minimal_first_wins (modes : List GstDfbVMode)
    (v_width v_height : Int) (m : GstDfbVMode)
    (h : gst_dfbvideosink_get_best_vmode modes v_width v_height = some m) :
    (m ∈ modes ∧
      (∀ x ∈ modes, vmodeGap v_width v_height m ≤ vmodeGap v_width v_height x) ∧
      ∃ pre post, modes = pre ++ m :: post ∧
        ∀ x ∈ pre, vmodeGap v_width v_height m < vmodeGap v_width v_height x) ∧
    gst_dfbvideosink_get_best_vmode
        [⟨720, 480, 24⟩, ⟨1280, 720, 24⟩] 1000 600 = some ⟨720, 480, 24⟩ := by
  refine ⟨?_, by decide⟩
  match modes, h with
  | first :: rest, h =>
    rw [gst_dfbvideosink_get_best_vmode] at h
    obtain ⟨b, hb⟩ : ∃ b, bestVModeAux v_width v_height (first :: rest) first = b :=
      ⟨_, rfl⟩
    rw [hb] at h
    have hm : m = b := (Option.some.injEq _ _ ▸ h).symm
    subst hm
    have hspec := bestVModeAux_spec v_width v_height (first :: rest) first
    rw [hb] at hspec
    rcases hspec with ⟨heq, hall⟩ | ⟨pre, post, hsplit, _, hpre, hpost⟩
    · subst heq
      exact ⟨List.mem_cons_self _ _, hall, [], rest, rfl, by simp⟩
    · refine ⟨?_, ?_, pre, post, hsplit, hpre⟩
      · rw [hsplit]
        exact List.mem_append_right _ (List.mem_cons_self _ _)
      · intro x hx
        rw [hsplit] at hx
        rcases List.mem_append.mp hx with hx | hx
        · exact le_of_lt (hpre x hx)
        · rcases List.mem_cons.mp hx with rfl | hx
          · exact le_refl _
          · exact hpost x hx

/-- Counterexample to C3 as frozen: at `device_modes =
[{720,480,24},{1280,720,24}]` and requested `(1000,600)` the two gap sums
tie at `400`, so under the first-wins tie-break the selection is
`{720,480,24}`, not the `{1280,720,24}` the claim asserts. -/
theorem get_best_vmode_tie_counterexample :
    gst_dfbvideosink_get_best_vmode
        [⟨720, 480, 24⟩, ⟨1280, 720, 24⟩] 1000 600 = some ⟨720, 480, 24⟩ ∧
      gst_dfbvideosink_get_best_vmode
        [⟨720, 480, 24⟩, ⟨1280, 720, 24⟩] 1000 600 ≠ some ⟨1280, 720, 24⟩ := by
  decide

/-- Witness for C3 (amended) at the spec's own example input. -/
theorem get_best_vmode_minimal_first_wins_witness :
    ((⟨720, 480, 24⟩ : GstDfbVMode) ∈
        ([⟨720, 480, 24⟩, ⟨1280, 720, 24⟩] : List GstDfbVMode) ∧
      (∀ x ∈ ([⟨720, 480, 24⟩, ⟨1280, 720, 24⟩] : List GstDfbVMode),
        vmodeGap 1000 600 ⟨720, 480, 24⟩ ≤ vmodeGap 1000 600 x) ∧
      ∃ pre post,
        ([⟨720, 480, 24⟩, ⟨1280, 720, 24⟩] : List GstDfbVMode) =
          pre ++ ⟨720, 480, 24⟩ :: post ∧
        ∀ x ∈ pre, vmodeGap 1000 600 ⟨720, 480, 24⟩ < vmodeGap 1000 600 x) ∧
    gst_dfbvideosink_get_best_vmode
        [⟨720, 480, 24⟩, ⟨1280, 720, 24⟩] 1000 600 = some ⟨720, 480, 24⟩ :=
  get_best_vmode_minimal_first_wins
    [⟨720, 480, 24⟩, ⟨1280, 720, 24⟩] 1000 600 ⟨720, 480, 24⟩ (by decide)

/-! ## Geometry fitter -/

structure GstVideoRectangle where
  x : Int
  y : Int
  w : Int
  h : Int
  deriving DecidableEq, Repr

/-- Modelled from the spec: `gst_video_sink_center_rect` lives in the
external gst-plugins-base library, not in this repository; the design
document describes it as the standard center-and-letterbox computation
over integers — when scaling is forbidden the source is only centered or
clipped to the destination, when scaling is allowed the source is scaled
into the destination preserving its aspect ratio (compared here by integer
cross-multiplication) and centered on the short side, and degenerate
inputs (zero width or height in either rectangle) yield a zero-sized
result rectangle rather than an error.  The result is expressed relative
to the destination's origin. -/
def gst_video_sink_center_rect (src dst : GstVideoRectangle)
    (scaling : Bool) : GstVideoRectangle :=
  if src.w ≤ 0 ∨ src.h ≤ 0 ∨ dst.w ≤ 0 ∨ dst.h ≤ 0 then
    ⟨0, 0, 0, 0⟩
  else if scaling = false then
    let w := min src.w dst.w
    let h := min src.h dst.h
    ⟨(dst.w - w) / 2, (dst.h - h) / 2, w, h⟩
  else if src.w * dst.h > dst.w * src.h then
    let h := dst.w * src.h / src.w
    ⟨0, (dst.h - h) / 2, dst.w, h⟩
  else if src.w * dst.h < dst.w * src.h then
    let w := dst.h * src.w / src.h
    ⟨(dst.w - w) / 2, 0, w, dst.h⟩
  else
    ⟨0, 0, dst.w, dst.h⟩

/-- `gst_dfbvideosink_center_rect`: full stretch to the destination when
scaling is allowed and the aspect ratio need not be kept; otherwise defer
to `gst_video_sink_center_rect` and translate the result by the
destination's origin. -/
def gst_dfbvideosink_center_rect (src dst : GstVideoRectangle)
    (scaling keep_aspect_ratio : Bool) : GstVideoRectangle :=
  if scaling ∧ ¬keep_aspect_ratio then
    ⟨dst.x, dst.y, dst.w, dst.h⟩
  else
    let r := gst_video_sink_center_rect src dst scaling
    ⟨r.x + dst.x, r.y + dst.y, r.w, r.h⟩

/-- C4: with scaling allowed and the aspect ratio not kept the fitter
returns the destination rectangle verbatim; in every other flag
combination it returns the center-and-letterbox rectangle of the source
into the destination, translated by the destination rectangle's origin. -/
theorem center_rect_cases (src dst : GstVideoRectangle)
    (scaling keep_aspect_ratio : Bool) :
    (scaling = true ∧ keep_aspect_ratio = false →
      gst_dfbvideosink_center_rect src dst scaling keep_aspect_ratio =
        ⟨dst.x, dst.y, dst.w, dst.h⟩) ∧
    (¬(scaling = true ∧ keep_aspect_ratio = false) →
      gst_dfbvideosink_center_rect src dst scaling keep_aspect_ratio =
        ⟨(gst_video_sink_center_rect src dst scaling).x + dst.x,
         (gst_video_sink_center_rect src dst scaling).y + dst.y,
         (gst_video_sink_center_rect src dst scaling).w,
         (gst_video_sink_center_rect src dst scaling).h⟩) := by
  cases scaling <;> cases keep_aspect_ratio <;>
    simp [gst_dfbvideosink_center_rect]

/-- C7 (amended): in every flag combination other than full stretch
(scaling allowed, aspect ratio not kept), the fitter maps a source
rectangle with zero (or negative) width or height to a zero-sized result
rectangle — all arithmetic is over integers and no error is raised. -/
theorem center_rect_degenerate (src dst : GstVideoRectangle)
    (scaling keep_aspect_ratio : Bool)
    (hsrc : src.w ≤ 0 ∨ src.h ≤ 0)
    (hflags : ¬(scaling = true ∧ keep_aspect_ratio = false)) :
    (gst_dfbvideosink_center_rect src dst scaling keep_aspect_ratio).w = 0 ∧
    (gst_dfbvideosink_center_rect src dst scaling keep_aspect_ratio).h = 0 := by
  have hc : ¬(scaling ∧ ¬keep_aspect_ratio) := by
    cases scaling <;> cases keep_aspect_ratio <;> simp_all
  rw [gst_dfbvideosink_center_rect, if_neg hc]
  have hdeg : src.w ≤ 0 ∨ src.h ≤ 0 ∨ dst.w ≤ 0 ∨ dst.h ≤ 0 := by
    rcases hsrc with hsrc | hsrc
    · exact Or.inl hsrc
    · exact Or.inr (Or.inl hsrc)
  rw [gst_video_sink_center_rect, if_pos hdeg]
  exact ⟨rfl, rfl⟩

/-- Counterexample to C7 as frozen: the claim quantifies over every flag
pair, but with scaling allowed and the aspect ratio not kept the fitter
returns the destination verbatim, so the zero source rectangle maps to the
full `10×10` destination, not to a zero-sized rectangle. -/
theorem center_rect_degenerate_counterexample :
    gst_dfbvideosink_center_rect ⟨0, 0, 0, 0⟩ ⟨0, 0, 10, 10⟩ true false =
        ⟨0, 0, 10, 10⟩ ∧
      ¬((gst_dfbvideosink_center_rect ⟨0, 0, 0, 0⟩ ⟨0, 0, 10, 10⟩
            true false).w = 0 ∨
        (gst_dfbvideosink_center_rect ⟨0, 0, 0, 0⟩ ⟨0, 0, 10, 10⟩
            true false).h = 0) := by
  decide

/-- Witness for C7 (amended): `fit(src={0,0,0,0}, dst={0,0,10,10},
scaling, keep_aspect_ratio)` is zero-sized. -/
theorem center_rect_degenerate_witness :
    (gst_dfbvideosink_center_rect ⟨0, 0, 0, 0⟩ ⟨0, 0, 10, 10⟩ true true).w = 0 ∧
    (gst_dfbvideosink_center_rect ⟨0, 0, 0, 0⟩ ⟨0, 0, 10, 10⟩ true true).h = 0 :=
  center_rect_degenerate ⟨0, 0, 0, 0⟩ ⟨0, 0, 10, 10⟩ true true
    (Or.inl (le_refl 0)) (by simp)

/-! ## The surface/buffer pool

A `GstDfbSurface` as the pool operations see it: its geometry tag
(width, height, pixel format) plus an identity so that distinct buffer
objects with equal tags stay distinguishable. -/

structure GstDfbSurface where
  id : Nat
  width : Int
  height : Int
  pixel_format : DFBSurfacePixelFormat
  deriving DecidableEq, Repr

/-- The sink state the pool operations and `buffer_alloc` touch. -/
structure GstDfbVideoSink where
  setup : Bool
  hw_scaling : Bool
  vmodes : List GstDfbVMode
  ext_surface : Option (Int × Int)
  primary_size : Int × Int
  out_width : Int
  out_height : Int
  keep_ar : Bool
  video_width : Int
  video_height : Int
  pixel_format : DFBSurfacePixelFormat
  buffer_pool : List GstDfbSurface
  next_id : Nat
  deriving DecidableEq, Repr

/-- The tag of `s` equals the geometry `(width, height, pf)`. -/
def surfaceMatches (width height : Int) (pf : DFBSurfacePixelFormat)
    (s : GstDfbSurface) : Prop :=
  s.width = width ∧ s.height = height ∧ s.pixel_format = pf

instance (width height : Int) (pf : DFBSurfacePixelFormat)
    (s : GstDfbSurface) : Decidable (surfaceMatches width height pf s) :=
  inferInstanceAs (Decidable (_ ∧ _ ∧ _))

/-- Invariant: every buffer held in the pool is tagged with the currently
negotiated geometry. -/
def PoolInv (sink : GstDfbVideoSink) : Prop :=
  ∀ s ∈ sink.buffer_pool,
    surfaceMatches sink.video_width sink.video_height sink.pixel_format s

inductive ReleaseAction where
  | destroyed
  | pooled
  deriving DecidableEq, Repr

/-- `gst_dfbsurface_finalize` (the release path): a buffer whose tag no
longer equals the negotiated geometry is destroyed; otherwise it is
prepended to the pool for reuse. -/
def gst_dfbsurface_finalize (sink : GstDfbVideoSink) (s : GstDfbSurface) :
    GstDfbVideoSink × ReleaseAction :=
  if s.width ≠ sink.video_width ∨ s.height ≠ sink.video_height ∨
      s.pixel_format ≠ sink.pixel_format then
    (sink, .destroyed)
  else
    ({ sink with buffer_pool := s :: sink.buffer_pool }, .pooled)

/-- The pool-inspection loop of `gst_dfbvideosink_buffer_alloc`: pop
entries off the pool head; destroy each whose tag differs from the
requested geometry, stop at the first whose tag matches.  Returns
(remaining pool, found entry, destroyed entries). -/
def pool_scan (width height : Int) (pf : DFBSurfacePixelFormat) :
    List GstDfbSurface →
      List GstDfbSurface × Option GstDfbSurface × List GstDfbSurface
  | [] => ([], none, [])
  | s :: rest =>
    if s.width ≠ width ∨ s.height ≠ height ∨ s.pixel_format ≠ pf then
      let r := pool_scan width height pf rest
      (r.1, r.2.1, s :: r.2.2)
    else
      (rest, some s, [])

/-- The mismatch test the two pool operations perform is the negation of
`surfaceMatches`. -/
theorem mismatch_iff (width height : Int) (pf : DFBSurfacePixelFormat)
    (s : GstDfbSurface) :
    (s.width ≠ width ∨ s.height ≠ height ∨ s.pixel_format ≠ pf) ↔
      ¬surfaceMatches width height pf s := by
  unfold surfaceMatches
  tauto

/-- What the pool scan computes: destroyed entries all mismatch the
request; a found entry matches it and splits the original pool as
`destroyed ++ found :: remaining`; when nothing is found the whole pool
was destroyed. -/
theorem pool_scan_spec (width height : Int) (pf : DFBSurfacePixelFormat)
    (pool : List GstDfbSurface) :
    (∀ d ∈ (pool_scan width height pf pool).2.2,
      ¬surfaceMatches width height pf d) ∧
    (∀ f, (pool_scan width height pf pool).2.1 = some f →
      surfaceMatches width height pf f ∧
      pool = (pool_scan width height pf pool).2.2 ++
        f :: (pool_scan width height pf pool).1) ∧
    ((pool_scan width height pf pool).2.1 = none →
      pool = (pool_scan width height pf pool).2.2 ∧
      (pool_scan width height pf pool).1 = []) := by
  induction pool with
  | nil => exact ⟨by simp [pool_scan], by simp [pool_scan], by simp [pool_scan]⟩
  | cons s rest ih =>
    obtain ⟨ihdes, ihfound, ihnone⟩ := ih
    by_cases hs : s.width ≠ width ∨ s.height ≠ height ∨ s.pixel_format ≠ pf
    · rw [pool_scan, if_pos hs]
      refine ⟨?_, ?_, ?_⟩
      · intro d hd
        rcases List.mem_cons.mp hd with rfl | hd
        · exact (mismatch_iff width height pf d).mp hs
        · exact ihdes d hd
      · intro f hf
        obtain ⟨hmatch, hsplit⟩ := ihfound f hf
        refine ⟨hmatch, ?_⟩
        rw [List.cons_append]
        exact congrArg _ hsplit
      · intro hf
        obtain ⟨hsplit, hrem⟩ := ihnone hf
        exact ⟨congrArg _ hsplit, hrem⟩
    · rw [pool_scan, if_neg hs]
      refine ⟨by simp, ?_, by simp⟩
      intro f hf
      obtain rfl : s = f := Option.some.injEq _ _ ▸ hf
      refine ⟨?_, by simp⟩
      exact not_not.mp ((mismatch_iff width height pf s).not.mp hs)

/-- A found scan result and every surviving pool entry come from the
original pool. -/
theorem pool_scan_mem (width height : Int) (pf : DFBSurfacePixelFormat)
    (pool : List GstDfbSurface) :
    (∀ f, (pool_scan width height pf pool).2.1 = some f → f ∈ pool) ∧
    (∀ p ∈ (pool_scan width height pf pool).1, p ∈ pool) := by
  obtain ⟨_, hfound, hnone⟩ := pool_scan_spec width height pf pool
  constructor
  · intro f hf
    obtain ⟨_, hsplit⟩ := hfound f hf
    rw [hsplit]
    exact List.mem_append_right _ (List.mem_cons_self _ _)
  · intro p hp
    cases hcase : (pool_scan width height pf pool).2.1 with
    | some f =>
      obtain ⟨_, hsplit⟩ := hfound f hcase
      rw [hsplit]
      exact List.mem_append_right _ (List.mem_cons_of_mem _ hp)
    | none =>
      obtain ⟨_, hrem⟩ := hnone hcase
      rw [hrem] at hp
      exact absurd hp (List.not_mem_nil p)

/-- C2: the pool invariant — every pooled buffer's tag equals the
currently negotiated geometry — is preserved by both pool operations:
release pools a buffer exactly when its tag equals the negotiated
geometry and destroys it otherwise; the acquire scan destroys every
scanned entry whose tag differs from the requested geometry, only returns
an entry bearing the requested tag, and leaves only original pool entries
in the pool; and after a release with a stale tag (which leaves the pool
unchanged) an acquire for that old tag can never return the released
buffer, so it allocates fresh. -/
theorem pool_invariant (sink : GstDfbVideoSink) (s : GstDfbSurface)
    (width height : Int) (pf : DFBSurfacePixelFormat) :
    (PoolInv sink → PoolInv (gst_dfbsurface_finalize sink s).1) ∧
    ((gst_dfbsurface_finalize sink s).2 = .pooled ↔
      surfaceMatches sink.video_width sink.video_height sink.pixel_format s) ∧
    (∀ d ∈ (pool_scan width height pf sink.buffer_pool).2.2,
      ¬surfaceMatches width height pf d) ∧
    (∀ f, (pool_scan width height pf sink.buffer_pool).2.1 = some f →
      surfaceMatches width height pf f ∧ f ∈ sink.buffer_pool ∧
      sink.buffer_pool = (pool_scan width height pf sink.buffer_pool).2.2 ++
        f :: (pool_scan width height pf sink.buffer_pool).1) ∧
    (PoolInv sink →
      PoolInv { sink with
        buffer_pool := (pool_scan width height pf sink.buffer_pool).1 }) ∧
    (¬surfaceMatches sink.video_width sink.video_height sink.pixel_format s →
      s.id ∉ sink.buffer_pool.map GstDfbSurface.id →
      (gst_dfbsurface_finalize sink s).1 = sink ∧
      ∀ f, (pool_scan s.width s.height sink.pixel_format
          (gst_dfbsurface_finalize sink s).1.buffer_pool).2.1 = some f →
        f.id ≠ s.id) := by
  obtain ⟨hdes, hfound, _⟩ := pool_scan_spec width height pf sink.buffer_pool
  obtain ⟨hfmem, hpmem⟩ := pool_scan_mem width height pf sink.buffer_pool
  refine ⟨?_, ?_, hdes, ?_, ?_, ?_⟩
  · intro hinv
    by_cases htag :
        surfaceMatches sink.video_width sink.video_height sink.pixel_format s
    · rw [gst_dfbsurface_finalize,
        if_neg ((mismatch_iff _ _ _ s).not.mpr (not_not.mpr htag))]
      intro x hx
      rcases List.mem_cons.mp hx with rfl | hx
      · exact htag
      · exact hinv x hx
    · rw [gst_dfbsurface_finalize, if_pos ((mismatch_iff _ _ _ s).mpr htag)]
      exact hinv
  · by_cases htag :
        surfaceMatches sink.video_width sink.video_height sink.pixel_format s
    · rw [gst_dfbsurface_finalize,
        if_neg ((mismatch_iff _ _ _ s).not.mpr (not_not.mpr htag))]
      simp [htag]
    · rw [gst_dfbsurface_finalize, if_pos ((mismatch_iff _ _ _ s).mpr htag)]
      simp [htag]
  · intro f hf
    exact ⟨(hfound f hf).1, hfmem f hf, (hfound f hf).2⟩
  · intro hinv x hx
    exact hinv x (hpmem x hx)
  · intro hstale hid
    have hfin : gst_dfbsurface_finalize sink s = (sink, .destroyed) := by
      rw [gst_dfbsurface_finalize, if_pos ((mismatch_iff _ _ _ s).mpr hstale)]
    refine ⟨by rw [hfin], ?_⟩
    intro f hf
    rw [hfin] at hf
    have hfpool : f ∈ sink.buffer_pool :=
      (pool_scan_mem s.width s.height sink.pixel_format sink.buffer_pool).1 f hf
    intro heq
    exact hid (heq ▸ List.mem_map_of_mem GstDfbSurface.id hfpool)

/-! ## Surface creation (`gst_dfbvideosink_surface_create`) -/

/-- Full caps as `surface_create` reads them: the `width`/`height` integer
fields of the first structure (absent when `gst_structure_get_int` fails)
and the format-bearing fields. -/
structure GstCaps where
  dims : Option (Int × Int)
  fmt : GstVideoCapsStructure
  deriving DecidableEq, Repr

/-- The external DirectFB behaviour `surface_create` depends on: whether
the sink holds a DirectFB context, whether `CreateSurface` succeeds, and
the line pitch (bytes per line, a byte count) `Lock` reports for the
created surface. -/
structure DfbEnv where
  has_dfb : Bool
  create_surface_ok : Bool
  pitch : Nat
  deriving DecidableEq, Repr

/-- What `surface_create` hands back: the buffer's tag (with identity),
whether it still owns a native DirectFB surface, and the byte size of its
data (`GST_BUFFER_SIZE`). -/
structure CreatedBuffer where
  surface : GstDfbSurface
  has_native_surface : Bool
  buffer_size : Nat
  deriving DecidableEq, Repr

/-- The `fallback:` label of `surface_create`: a plain `g_malloc` block of
exactly `size` bytes; any native surface acquired so far is released. -/
def surfaceFallback (id : Nat) (width height : Int)
    (pf : DFBSurfacePixelFormat) (size : Nat) : CreatedBuffer :=
  ⟨⟨id, width, height, pf⟩, false, size⟩

/-- `gst_dfbvideosink_surface_create`: read the geometry and pixel format
from the caps (a freshly initialised surface carries `0×0` and
`DSPF_UNKNOWN`), try to create a native DirectFB surface of that geometry,
and keep it only when its `pitch * height` byte size equals the requested
`size` exactly; on any failure fall back to a plain memory block of `size`
bytes.  Both the native and the fallback path set `succeeded`, so the
function never returns `NULL` (`none`); negotiated caps dimensions are
positive, `Int.toNat` converts them. -/
def gst_dfbvideosink_surface_create :
    DfbEnv → Nat → GstCaps → Nat → Option CreatedBuffer
  | _, id, ⟨none, _⟩, size => some (surfaceFallback id 0 0 DSPF_UNKNOWN size)
  | env, id, ⟨some (w, h), fmt⟩, size =>
    if gst_dfbvideosink_get_format_from_caps fmt = DSPF_UNKNOWN then
      some (surfaceFallback id w h (gst_dfbvideosink_get_format_from_caps fmt) size)
    else if env.has_dfb = false then
      some (surfaceFallback id w h (gst_dfbvideosink_get_format_from_caps fmt) size)
    else if env.create_surface_ok = false then
      some (surfaceFallback id w h (gst_dfbvideosink_get_format_from_caps fmt) size)
    else if env.pitch * h.toNat ≠ size then
      some (surfaceFallback id w h (gst_dfbvideosink_get_format_from_caps fmt) size)
    else
      some ⟨⟨id, w, h, gst_dfbvideosink_get_format_from_caps fmt⟩, true,
        env.pitch * h.toNat⟩

/-- C5: every allocation of a new buffer returns a buffer (never an
error) whose data size is exactly the requested byte size; the native
surface is kept only when its `pitch * height` equals the requested size,
so on an allocation mismatch the buffer has degraded to a plain memory
block of the requested size. -/
theorem surface_create_exact_size (env : DfbEnv) (id : Nat)
    (caps : GstCaps) (size : Nat) :
    ∃ b, gst_dfbvideosink_surface_create env id caps size = some b ∧
      b.buffer_size = size ∧
      (b.has_native_surface = true →
        ∃ w h, caps.dims = some (w, h) ∧ env.pitch * h.toNat = size) := by
  rcases caps with ⟨dims, fmt⟩
  rcases dims with _ | ⟨w, h⟩
  · exact ⟨surfaceFallback id 0 0 DSPF_UNKNOWN size, rfl, rfl,
      by simp [surfaceFallback]⟩
  · simp only [gst_dfbvideosink_surface_create]
    split_ifs with h1 h2 h3 h4
    · exact ⟨_, rfl, rfl, by simp [surfaceFallback]⟩
    · exact ⟨_, rfl, rfl, by simp [surfaceFallback]⟩
    · exact ⟨_, rfl, rfl, by simp [surfaceFallback]⟩
    · exact ⟨_, rfl, rfl, by simp [surfaceFallback]⟩
    · rw [not_not] at h4
      exact ⟨_, rfl, h4, fun _ => ⟨w, h, rfl, h4⟩⟩

/-! ## Reverse-negotiation buffer size -/

/-- The size recomputation of `buffer_alloc` when the upstream peer
accepts the proposed geometry: `bpp = size / height / width` (unsigned
integer division, truncating), then `size = bpp * new_width * new_height`. -/
def rev_nego_buffer_size (size : Nat) (width height new_width new_height : Int) :
    Nat :=
  let bpp := size / height.toNat / width.toNat
  bpp * new_width.toNat * new_height.toNat

/-- C8: the proposed buffer size is `bpp * new_width * new_height` with
`bpp` the truncated quotient of the original size by the original height
and then by the original width — equivalently, the truncated per-pixel
cost `size / (width * height)` — and recomputing at the original geometry
recovers the original size exactly when `width * height` divides it. -/
theorem rev_nego_buffer_size_eq (size : Nat)
    (width height new_width new_height : Int) :
    rev_nego_buffer_size size width height new_width new_height =
      size / (width.toNat * height.toNat) *
        (new_width.toNat * new_height.toNat) ∧
    (rev_nego_buffer_size size width height width height = size ↔
      width.toNat * height.toNat ∣ size) := by
  constructor
  · rw [rev_nego_buffer_size, Nat.div_div_eq_div_mul,
      Nat.mul_comm height.toNat width.toNat, Nat.mul_assoc]
  · rw [rev_nego_buffer_size, Nat.div_div_eq_div_mul,
      Nat.mul_comm height.toNat width.toNat, Nat.mul_assoc]
    constructor
    · intro h
      exact ⟨size / (width.toNat * height.toNat), by rw [Nat.mul_comm]; exact h.symm⟩
    · intro h
      exact Nat.div_mul_cancel h

/-! ## Window-offset sanitisation at setup -/

/-- The "sanity check of size and geometry for the target window" block of
`gst_dfbvideosink_setup`: a zero window width/height defaults to the
target surface size, and an x/y offset at or beyond the surface bounds is
wrapped modulo the surface size (C `%`, truncating: `Int.tmod`). -/
def setup_sanitize_window (window : GstVideoRectangle)
    (width height : Int) : GstVideoRectangle :=
  let w := if window.w = 0 then width else window.w
  let h := if window.h = 0 then height else window.h
  let x := if window.x ≥ width then Int.tmod window.x width else window.x
  let y := if window.y ≥ height then Int.tmod window.y height else window.y
  ⟨x, y, w, h⟩

/-- C9: an x offset at or beyond the target surface width is replaced by
`x % width`, a y offset at or beyond the height by `y % height`, and
offsets strictly below the bounds are left unchanged. -/
theorem setup_window_wraps_offsets (window : GstVideoRectangle)
    (width height : Int) :
    (window.x ≥ width →
      (setup_sanitize_window window width height).x = Int.tmod window.x width) ∧
    (window.x < width →
      (setup_sanitize_window window width height).x = window.x) ∧
    (window.y ≥ height →
      (setup_sanitize_window window width height).y = Int.tmod window.y height) ∧
    (window.y < height →
      (setup_sanitize_window window width height).y = window.y) := by
  refine ⟨fun hx => ?_, fun hx => ?_, fun hy => ?_, fun hy => ?_⟩ <;>
    simp only [setup_sanitize_window] <;>
    first
      | rw [if_pos ‹_›]
      | rw [if_neg (not_le.mpr ‹_›)]

/-! ## `gst_dfbvideosink_buffer_alloc` -/

inductive GstFlowReturn where
  | GST_FLOW_OK
  deriving DecidableEq, Repr

/-- The external behaviour `buffer_alloc` depends on beyond the sink
state: the DirectFB surface-creation outcome and the upstream peer pad
(`none` = no peer; `some accepts` = whether `gst_pad_accept_caps` accepts
the proposed caps). -/
structure AllocEnv where
  dfb : DfbEnv
  peer : Option Bool
  deriving DecidableEq, Repr

/-- The reverse-negotiation phase of `buffer_alloc` (everything between
the setup check and the `alloc:` label), given the `width`/`height` read
from the requested caps.  Returns `(rev_nego, width', height', size',
sink')`: whether reverse negotiation took place, the geometry the pool
scan will use, the (possibly recomputed) byte size, and the sink (whose
`out_width`/`out_height` are updated when no video mode is known and the
target surface size is queried).  The local `src`/`dst` rectangles only
ever have their `w`/`h` fields read, so their origins are passed as 0. -/
def buffer_alloc_rev_nego (sink : GstDfbVideoSink) (env : AllocEnv)
    (size : Nat) (width height : Int) :
    Bool × Int × Int × Nat × GstDfbVideoSink :=
  if sink.hw_scaling then (false, width, height, size, sink)
  else
    let dstSink : (Int × Int) × GstDfbVideoSink :=
      match gst_dfbvideosink_get_best_vmode sink.vmodes width height with
      | some vmode => ((vmode.width, vmode.height), sink)
      | none =>
        match sink.ext_surface with
        | some (w, h) => ((w, h), { sink with out_width := w, out_height := h })
        | none => ((sink.primary_size.1, sink.primary_size.2),
            { sink with out_width := sink.primary_size.1,
                        out_height := sink.primary_size.2 })
    let dst := dstSink.1
    let sink₁ := dstSink.2
    let result := gst_dfbvideosink_center_rect ⟨0, 0, width, height⟩
      ⟨0, 0, dst.1, dst.2⟩ true sink.keep_ar
    if width ≠ result.w ∨ height ≠ result.h then
      match env.peer with
      | none => (false, width, height, size, sink₁)
      | some accepts =>
        if accepts then
          (true, result.w, result.h,
            rev_nego_buffer_size size width height result.w result.h, sink₁)
        else
          (false, sink.video_width, sink.video_height, size, sink₁)
    else
      (false, width, height, size, sink₁)

/-- `gst_dfbvideosink_buffer_alloc`: a `NULL` buffer with `GST_FLOW_OK`
when the sink is not set up; otherwise run reverse negotiation, scan the
pool under the lock (destroying stale entries), and if nothing suitable
was pooled create a new surface — from the desired caps when reverse
negotiation happened, from the original caps otherwise.  Returns the flow
result, the buffer handed to the caller (`none` = `NULL`) and the new
sink state. -/
def gst_dfbvideosink_buffer_alloc (sink : GstDfbVideoSink) (env : AllocEnv)
    (size : Nat) (width height : Int) (fmt : GstVideoCapsStructure) :
    GstFlowReturn × Option GstDfbSurface × GstDfbVideoSink :=
  if sink.setup = false then (.GST_FLOW_OK, none, sink)
  else
    match buffer_alloc_rev_nego sink env size width height with
    | (rev_nego, width', height', size', sink₁) =>
      let scan := pool_scan width' height' sink.pixel_format sink₁.buffer_pool
      let sink₂ := { sink₁ with buffer_pool := scan.1 }
      match scan.2.1 with
      | some f => (.GST_FLOW_OK, some f, sink₂)
      | none =>
        let ccaps : GstCaps :=
          if rev_nego then ⟨some (width', height'), fmt⟩
          else ⟨some (width, height), fmt⟩
        match gst_dfbvideosink_surface_create env.dfb sink₂.next_id ccaps size' with
        | some b => (.GST_FLOW_OK, some b.surface,
            { sink₂ with next_id := sink₂.next_id + 1 })
        | none => (.GST_FLOW_OK, none,
            { sink₂ with next_id := sink₂.next_id + 1 })

/-- C10: a buffer-allocation request against a sink that is not set up
succeeds vacuously — `GST_FLOW_OK` with a `NULL` output buffer — and
leaves the sink state, its buffer pool included, unchanged. -/
theorem buffer_alloc_not_setup (sink : GstDfbVideoSink) (env : AllocEnv)
    (size : Nat) (width height : Int) (fmt : GstVideoCapsStructure)
    (h : sink.setup = false) :
    gst_dfbvideosink_buffer_alloc sink env size width height fmt =
      (.GST_FLOW_OK, none, sink) := by
  rw [gst_dfbvideosink_buffer_alloc, if_pos h]

/-- Witness for C10 at a concrete sink that is not set up. -/
theorem buffer_alloc_not_setup_witness :
    gst_dfbvideosink_buffer_alloc
        ⟨false, false, [], none, (640, 480), 0, 0, true, 640, 480,
          DSPF_YV12, [], 0⟩
        ⟨⟨true, true, 1280⟩, none⟩ 460800 640 480 (.yuv (some FOURCC_YV12)) =
      (.GST_FLOW_OK, none,
        ⟨false, false, [], none, (640, 480), 0, 0, true, 640, 480,
          DSPF_YV12, [], 0⟩) :=
  buffer_alloc_not_setup
    ⟨false, false, [], none, (640, 480), 0, 0, true, 640, 480,
      DSPF_YV12, [], 0⟩
    ⟨⟨true, true, 1280⟩, none⟩ 460800 640 480 (.yuv (some FOURCC_YV12)) rfl

end DfbVideoSink
